import Mathlib

/-!
Verification of the arbitrage decision loop and session state machine of the
coinbase-arbitrage-bot repository (`ArbitrageService`, file
`src/services/arbitrageService.ts`).

Shallow embedding notes:
* JavaScript `bigint` amounts are embedded as `Int`.
* JavaScript `number` values produced by `Number(formatUnits(...))` are
  embedded as exact rationals `ℚ`; IEEE-754 rounding is not modelled.  The
  `sessionProfit` float accumulator only ever receives values of the form
  `x / 10^mainDecimals`, so under this exact-arithmetic idealization it equals
  `sessionProfitUnits / 10^mainDecimals` for an integer accumulator
  `sessionProfitUnits`; the embedding stores that integer and exposes the
  decimal value through `sessionProfitQ`.  The target comparison
  `sessionProfit >= Number(formatUnits(balanceOut, d))` is accordingly the
  integer comparison `balanceOut <= sessionProfitUnits`
  (`formatUnitsQ_le_formatUnitsQ` below proves the two forms equivalent).
* A provider call `await p.f(...)` can resolve to a bigint, resolve to
  `undefined`, or reject; this is the `JSResult` type below.  The service
  guards `if (!x)` are JavaScript falsiness tests, so the bigint `0n` takes
  the same branch as `undefined`.
* `setInterval` / `clearInterval` are embedded by a count of armed repeating
  timers (`timers`) together with the `loop` field that stores the handle of
  the most recently armed timer, exactly as the class field `this.loop` does.
  `start()` arms a fresh timer and runs one cycle; the asynchronous cycle body
  suspends at its first `await`, so the timer is armed before any state
  mutation of the first cycle, which the embedding reflects by arming first.
* The structured logger is a pure sink; each call to it is recorded as an
  `Event`, and all external calls are recorded as call events so that
  "venue B was never invoked" is expressible as the absence of its event.
-/

namespace Arb

/-- Result of awaiting a JavaScript promise from an injected capability:
the call resolved with a value, resolved with `undefined`, or rejected
(threw). -/
inductive JSResult (α : Type) where
  | ok : α → JSResult α
  | nullish : JSResult α
  | thrown : JSResult α
deriving DecidableEq

/-- A configured decimal number `mantissa × 10⁻ˢᶜᵃˡᵉ`, as written in the
environment configuration (e.g. `0.5` is mantissa 5, scale 1). -/
structure DecimalCfg where
  mantissa : Int
  scale : Nat
deriving DecidableEq

/-- viem `parseUnits`: scale a configured decimal to integer base units at
`decimals` precision.  The configured values of this repository have no more
fractional digits than the main token precision, which is the exact
(rounding-free) case of `parseUnits`. -/
def parseUnitsCfg (d : DecimalCfg) (decimals : Nat) : Int :=
  d.mantissa * (10 : Int) ^ (decimals - d.scale)

/-- viem `formatUnits` followed by JavaScript `Number(...)`: base units to a
human-readable decimal value, embedded as an exact rational. -/
def formatUnitsQ (x : Int) (decimals : Nat) : ℚ :=
  (x : ℚ) / (10 : ℚ) ^ decimals

/-- The configuration slice the service reads: `config.trading`,
`config.tokens` (via `TokenUtils.getDecimals(MAIN_TOKEN_SYMBOL)`) and
`config.x402.paymentUrl`. -/
structure Config where
  amountInCfg : DecimalCfg
  profitThresholdCfg : DecimalCfg
  targetBalanceOutCfg : DecimalCfg
  mainDecimals : Nat
  paymentUrl : String
deriving DecidableEq

/-- Source: `this.amountIn = parseUnits(config.trading.amountIn.toString(), MAIN_TOKEN_DECIMALS)`. -/
def Config.amountIn (c : Config) : Int :=
  parseUnitsCfg c.amountInCfg c.mainDecimals

/-- Source: `this.balanceOut = parseUnits(config.trading.targetBalanceOut.toString(), MAIN_TOKEN_DECIMALS)`. -/
def Config.balanceOut (c : Config) : Int :=
  parseUnitsCfg c.targetBalanceOutCfg c.mainDecimals

/-- Source: `profitThresholdAmount = parseUnits(config.trading.profitThreshold.toString(), MAIN_TOKEN_DECIMALS)`. -/
def Config.profitThresholdAmount (c : Config) : Int :=
  parseUnitsCfg c.profitThresholdCfg c.mainDecimals

/-- The mutable session state of one `ArbitrageService` instance:
`txCount`, the `sessionProfit` accumulator held in exact main-token base
units (see the header note), and the timer bookkeeping (`loop` is the class
field `this.loop`; `timers` counts all interval timers that are still armed,
including any leaked by a re-entrant `start()`; `nextHandle` generates fresh
timer handles). -/
structure ServiceState where
  txCount : Nat
  sessionProfitUnits : Int
  loop : Option Nat
  timers : Nat
  nextHandle : Nat
deriving DecidableEq

/-- The state of a freshly constructed service. -/
def initState : ServiceState :=
  { txCount := 0, sessionProfitUnits := 0, loop := none, timers := 0, nextHandle := 0 }

/-- The `sessionProfit` field of the source, a decimal in human-readable
main-token units. -/
def sessionProfitQ (cfg : Config) (st : ServiceState) : ℚ :=
  formatUnitsQ st.sessionProfitUnits cfg.mainDecimals

/-- Source: `getStats().isRunning = this.loop !== undefined`. -/
def isRunning (st : ServiceState) : Bool :=
  st.loop.isSome

/-- Observable events of one service: calls made to the injected capabilities
and lines emitted through the structured logger. -/
inductive Event where
  | botStart
  | botStop
  | priceEstimation : String → Event
  | estimateACall : Int → Event
  | estimateBCall : Int → Event
  | tradeExecution
  | swapACall : Int → Event
  | swapBCall : Int → Event
  | tradeSuccess : ℚ → Event
  | opportunity : Int → Int → Int → ℚ → Bool → Nat → ℚ → Event
  | targetReached
  | x402Start
  | buyContentCall : String → Event
  | x402Success : String → Event
  | x402Warning
  | errorLog : String → Event
deriving DecidableEq

/-- Is this event an error-level report (`logger.logError`)? -/
def Event.isError : Event → Bool
  | Event.errorLog _ => true
  | _ => false

/-- Is this event the per-cycle trade-opportunity report
(`logger.logTradeOpportunity`)? -/
def Event.isOpportunity : Event → Bool
  | Event.opportunity _ _ _ _ _ _ _ => true
  | _ => false

/-- Is this event an invocation of the Content Payment capability
(`buyer.buyContent`)? -/
def Event.isBuy : Event → Bool
  | Event.buyContentCall _ => true
  | _ => false

/-- Is this event an invocation of `buyer.buyContent` with the given url? -/
def Event.isBuyTo (url : String) : Event → Bool
  | Event.buyContentCall u => u == url
  | _ => false

/-- Is this event the call to venue B `estimatePrice`? -/
def Event.isEstimateB : Event → Bool
  | Event.estimateBCall _ => true
  | _ => false

/-- Is this event the call to venue A `executeSwap`? -/
def Event.isSwapA : Event → Bool
  | Event.swapACall _ => true
  | _ => false

/-- Is this event the call to venue B `executeSwap`? -/
def Event.isSwapB : Event → Bool
  | Event.swapBCall _ => true
  | _ => false

/-- Is this event the entry log of `executeTrade` (`logger.logTradeExecution`),
emitted exactly when the service decided to execute? -/
def Event.isTradeExecution : Event → Bool
  | Event.tradeExecution => true
  | _ => false

/-- Number of error-level reports in an event list. -/
def countError (evs : List Event) : Nat :=
  evs.countP Event.isError

/-- Number of trade-opportunity reports in an event list. -/
def countOpportunity (evs : List Event) : Nat :=
  evs.countP Event.isOpportunity

/-- Number of `buyContent` invocations in an event list. -/
def countBuy (evs : List Event) : Nat :=
  evs.countP Event.isBuy

/-- The responses of the injected capabilities for one cycle: the two
`estimatePrice` calls, the two `executeSwap` calls, and `buyContent`.
A response is only consumed if the corresponding call is actually made. -/
structure CycleResponses where
  estA : JSResult Int
  estB : JSResult Int
  swpA : JSResult Int
  swpB : JSResult Int
  buy : JSResult String
deriving DecidableEq

/-- The method `ArbitrageService.executeTrade`: run venue A `executeSwap`, guard its
result for falsiness (`undefined` or `0n`), run venue B `executeSwap`, guard
again, then add the realized profit to `sessionProfit` and increment
`txCount`.  A rejection of either call is caught by the internal
`try/catch`, which reports an error and leaves the state unchanged. -/
def executeTrade (cfg : Config) (st : ServiceState) (r : CycleResponses) :
    ServiceState × List Event :=
  match r.swpA with
  | JSResult.thrown =>
      (st, [Event.tradeExecution, Event.swapACall cfg.amountIn,
            Event.errorLog "Error executing trade"])
  | JSResult.nullish =>
      (st, [Event.tradeExecution, Event.swapACall cfg.amountIn,
            Event.errorLog "First swap failed"])
  | JSResult.ok actualWeth =>
      if actualWeth = 0 then
        (st, [Event.tradeExecution, Event.swapACall cfg.amountIn,
              Event.errorLog "First swap failed"])
      else
        match r.swpB with
        | JSResult.thrown =>
            (st, [Event.tradeExecution, Event.swapACall cfg.amountIn,
                  Event.swapBCall actualWeth, Event.errorLog "Error executing trade"])
        | JSResult.nullish =>
            (st, [Event.tradeExecution, Event.swapACall cfg.amountIn,
                  Event.swapBCall actualWeth, Event.errorLog "Second swap failed"])
        | JSResult.ok actualOutput =>
            if actualOutput = 0 then
              (st, [Event.tradeExecution, Event.swapACall cfg.amountIn,
                    Event.swapBCall actualWeth, Event.errorLog "Second swap failed"])
            else
              let actualProfit := actualOutput - cfg.amountIn
              ({ st with
                  txCount := st.txCount + 1,
                  sessionProfitUnits := st.sessionProfitUnits + actualProfit },
               [Event.tradeExecution, Event.swapACall cfg.amountIn,
                Event.swapBCall actualWeth,
                Event.tradeSuccess (formatUnitsQ actualProfit cfg.mainDecimals)])

/-- The method `ArbitrageService.executeX402Payment`: invoke `buyContent` with the
configured payment url; a truthy result is a success, a falsy result
(`undefined` or the empty string) a warning, and a rejection is caught and
reported as an error.  It never rethrows. -/
def executeX402Payment (cfg : Config) (buy : JSResult String) : List Event :=
  match buy with
  | JSResult.thrown =>
      [Event.x402Start, Event.buyContentCall cfg.paymentUrl,
       Event.errorLog "Failed to execute x402 payment"]
  | JSResult.nullish =>
      [Event.x402Start, Event.buyContentCall cfg.paymentUrl, Event.x402Warning]
  | JSResult.ok content =>
      if content = "" then
        [Event.x402Start, Event.buyContentCall cfg.paymentUrl, Event.x402Warning]
      else
        [Event.x402Start, Event.buyContentCall cfg.paymentUrl,
         Event.x402Success content]

/-- The method `ArbitrageService.stop`: `clearInterval(this.loop)` when a handle is
stored, then reset the handle; a no-op when no handle is stored. -/
def stop (st : ServiceState) : ServiceState × List Event :=
  match st.loop with
  | some _ =>
      ({ st with loop := none, timers := st.timers - 1 }, [Event.botStop])
  | none => (st, [])

/-- The conditional call of `executeTrade` inside `executeArbitrageCycle`
(`if (shouldExecute) await this.executeTrade(...)`). -/
def tradePhase (cfg : Config) (st : ServiceState) (r : CycleResponses)
    (shouldExecute : Bool) : ServiceState × List Event :=
  if shouldExecute then executeTrade cfg st r else (st, [])

/-- The target check at the end of `executeArbitrageCycle`:
`if (this.sessionProfit >= Number(formatUnits(this.balanceOut, d)))` then log
target reached, run the x402 payment, and `stop()`.  The comparison is
written on the base-unit accumulators; `formatUnitsQ_le_formatUnitsQ` proves
it equal to the decimal comparison of the source. -/
def targetPhase (cfg : Config) (st : ServiceState) (buy : JSResult String) :
    ServiceState × List Event :=
  if cfg.balanceOut ≤ st.sessionProfitUnits then
    ((stop st).1,
     Event.targetReached :: (executeX402Payment cfg buy ++ (stop st).2))
  else
    (st, [])

/-- Log line and call event of the venue A estimation. -/
def estimationPrefixA (cfg : Config) : List Event :=
  [Event.priceEstimation "secondary from CDP", Event.estimateACall cfg.amountIn]

/-- Log line and call event of the venue B estimation. -/
def estimationPrefixB (wethFromCDP : Int) : List Event :=
  [Event.priceEstimation "main from DEX", Event.estimateBCall wethFromCDP]

/-- The float profit percentage of the opportunity report, embedded as an
exact rational: `(Number(formatUnits(netProfit, d)) / Number(formatUnits(amountIn, d))) * 100`. -/
def profitPercentageQ (cfg : Config) (netProfit : Int) : ℚ :=
  formatUnitsQ netProfit cfg.mainDecimals / formatUnitsQ cfg.amountIn cfg.mainDecimals * 100

/-- The method `ArbitrageService.executeArbitrageCycle`: estimate on venue A, guard for
falsiness, estimate on venue B, guard, compute `netProfit` and
`shouldExecute = netProfit >= profitThresholdAmount` in exact integer
arithmetic, conditionally execute the trade, unconditionally emit the
opportunity report with the post-trade counters, then run the target check.
A rejection of either estimate is caught by the outer `try/catch` of the
cycle, which reports an error; rejections inside `executeTrade` are already
caught there and do not reach the outer handler. -/
def executeArbitrageCycle (cfg : Config) (st : ServiceState) (r : CycleResponses) :
    ServiceState × List Event :=
  match r.estA with
  | JSResult.thrown =>
      (st, estimationPrefixA cfg ++ [Event.errorLog "Error in arbitrage cycle"])
  | JSResult.nullish =>
      (st, estimationPrefixA cfg ++ [Event.errorLog "Failed to get WETH price from CDP"])
  | JSResult.ok wethFromCDP =>
      if wethFromCDP = 0 then
        (st, estimationPrefixA cfg ++ [Event.errorLog "Failed to get WETH price from CDP"])
      else
        match r.estB with
        | JSResult.thrown =>
            (st, estimationPrefixA cfg ++ estimationPrefixB wethFromCDP ++
                 [Event.errorLog "Error in arbitrage cycle"])
        | JSResult.nullish =>
            (st, estimationPrefixA cfg ++ estimationPrefixB wethFromCDP ++
                 [Event.errorLog "Failed to get USDC price from DEX"])
        | JSResult.ok usdcFromDEX =>
            if usdcFromDEX = 0 then
              (st, estimationPrefixA cfg ++ estimationPrefixB wethFromCDP ++
                   [Event.errorLog "Failed to get USDC price from DEX"])
            else
              let netProfit := usdcFromDEX - cfg.amountIn
              let shouldExecute := decide (cfg.profitThresholdAmount ≤ netProfit)
              let tp := tradePhase cfg st r shouldExecute
              let tg := targetPhase cfg tp.1 r.buy
              (tg.1,
               estimationPrefixA cfg ++ estimationPrefixB wethFromCDP ++ tp.2 ++
               [Event.opportunity cfg.amountIn usdcFromDEX netProfit
                  (profitPercentageQ cfg netProfit) shouldExecute
                  tp.1.txCount (sessionProfitQ cfg tp.1)] ++
               tg.2)

/-- The method `ArbitrageService.start`: log, arm a fresh repeating timer
(`this.loop = setInterval(...)`, which overwrites the stored handle without
clearing a previously armed timer), and run one cycle immediately.  The
asynchronous cycle suspends at its first `await`, so the timer is armed
before any state effect of that first cycle. -/
def start (cfg : Config) (st : ServiceState) (r : CycleResponses) :
    ServiceState × List Event :=
  let armed : ServiceState :=
    { st with
        loop := some st.nextHandle,
        timers := st.timers + 1,
        nextHandle := st.nextHandle + 1 }
  let c := executeArbitrageCycle cfg armed r
  (c.1, Event.botStart :: c.2)

/-- The externally triggered steps of one session: a call to `start()`, a
call to `stop()`, or a tick of an armed repeating timer (with the capability
responses that the resulting cycle will consume). -/
inductive Step where
  | startCall : CycleResponses → Step
  | stopCall : Step
  | tick : CycleResponses → Step
deriving DecidableEq

/-- One session step.  A tick fires a cycle exactly when at least one
repeating timer is still armed (including timers leaked by a re-entrant
`start()`). -/
def doStep (cfg : Config) (st : ServiceState) : Step → ServiceState × List Event
  | Step.startCall r => start cfg st r
  | Step.stopCall => stop st
  | Step.tick r =>
      if 0 < st.timers then executeArbitrageCycle cfg st r else (st, [])

/-- Run a list of session steps, accumulating all events. -/
def runTrace (cfg : Config) (st : ServiceState) : List Step → ServiceState × List Event
  | [] => (st, [])
  | s :: rest =>
      let p := doStep cfg st s
      let q := runTrace cfg p.1 rest
      (q.1, p.2 ++ q.2)

/-- Number of `start()` calls in a step list. -/
def numStarts : List Step → Nat
  | [] => 0
  | Step.startCall _ :: rest => numStarts rest + 1
  | _ :: rest => numStarts rest

/-- A step list is well formed from a state when `start()` is only called
while not running (the usage the specification prescribes for callers). -/
def wfSteps (cfg : Config) (st : ServiceState) : List Step → Bool
  | [] => true
  | s :: rest =>
      match s with
      | Step.startCall _ =>
          !(isRunning st) && wfSteps cfg (doStep cfg st s).1 rest
      | _ => wfSteps cfg (doStep cfg st s).1 rest

/-- Timer-handle coherence: no armed timer when no handle is stored, and
exactly one armed timer when a handle is stored.  It holds initially and is
preserved by well-formed usage. -/
def stateInv (st : ServiceState) : Bool :=
  match st.loop with
  | none => st.timers == 0
  | some _ => st.timers == 1

/-- Did both estimates of the cycle succeed with a truthy (nonzero) value? -/
def estimatesOk (r : CycleResponses) : Bool :=
  match r.estA, r.estB with
  | JSResult.ok w, JSResult.ok u => !(w == 0) && !(u == 0)
  | _, _ => false

/-- A step is benign when any successful second swap it may perform returns
at least the cycle input amount (no realized-loss execution). -/
def benignStep (cfg : Config) : Step → Prop
  | Step.startCall r => ∀ v : Int, r.swpB = JSResult.ok v → cfg.amountIn ≤ v
  | Step.stopCall => True
  | Step.tick r => ∀ v : Int, r.swpB = JSResult.ok v → cfg.amountIn ≤ v

/-- The concrete configuration of the test suite and the spec scenarios:
amount 10, threshold 0.5, target 100, main token with 6 decimals. -/
def cfgEx : Config :=
  { amountInCfg := { mantissa := 10, scale := 0 },
    profitThresholdCfg := { mantissa := 5, scale := 1 },
    targetBalanceOutCfg := { mantissa := 100, scale := 0 },
    mainDecimals := 6,
    paymentUrl := "example.com/payment" }

/-- Responses realizing the spec scenario at the execution boundary: the
venue B estimate exceeds the input by exactly the threshold amount. -/
def respBoundary : CycleResponses :=
  ⟨JSResult.ok 4000000000000000, JSResult.ok 10500000,
   JSResult.ok 4000000000000000, JSResult.ok 10500000, JSResult.nullish⟩

/-- Responses whose estimates promise a profit above threshold but whose
executed second swap returns less than the input amount: a realized loss. -/
def respLoss : CycleResponses :=
  ⟨JSResult.ok 4000000000000000, JSResult.ok 11000000,
   JSResult.ok 4000000000000000, JSResult.ok 9000000, JSResult.nullish⟩

/-- Responses of the x402 test scenario: a single trade realizing the whole
profit target, with `buyContent` returning content. -/
def respTarget : CycleResponses :=
  ⟨JSResult.ok 4000000000000000, JSResult.ok 110000000,
   JSResult.ok 4000000000000000, JSResult.ok 110000000, JSResult.ok "content"⟩

/-- Responses estimating a profit below the threshold: no execution. -/
def respIdle : CycleResponses :=
  ⟨JSResult.ok 4000000000000000, JSResult.ok 10100000,
   JSResult.nullish, JSResult.nullish, JSResult.ok "content"⟩

/-- Responses where every capability call resolves to `undefined`. -/
def respAllNull : CycleResponses :=
  ⟨JSResult.nullish, JSResult.nullish, JSResult.nullish,
   JSResult.nullish, JSResult.nullish⟩

/-- Responses whose estimates promise an executable profit but whose first
swap fails. -/
def respExecFail : CycleResponses :=
  ⟨JSResult.ok 4000000000000000, JSResult.ok 11000000,
   JSResult.nullish, JSResult.nullish, JSResult.nullish⟩

/-- Responses where venue A estimates but venue B fails to estimate. -/
def respEstBFail : CycleResponses :=
  ⟨JSResult.ok 4000000000000000, JSResult.nullish, JSResult.nullish,
   JSResult.nullish, JSResult.nullish⟩

/-- Comparing two amounts through `formatUnits` at the same precision is,
under exact arithmetic, the base-unit integer comparison. -/
theorem formatUnitsQ_le_formatUnitsQ (a b : Int) (d : Nat) :
    formatUnitsQ a d ≤ formatUnitsQ b d ↔ a ≤ b := by
  unfold formatUnitsQ
  rw [div_le_div_iff_of_pos_right (by positivity)]
  exact_mod_cast Iff.rfl

/-- Strict version of `formatUnitsQ_le_formatUnitsQ`. -/
theorem formatUnitsQ_lt_formatUnitsQ (a b : Int) (d : Nat) :
    formatUnitsQ a d < formatUnitsQ b d ↔ a < b := by
  unfold formatUnitsQ
  rw [div_lt_div_iff_of_pos_right (by positivity)]
  exact_mod_cast Iff.rfl

/-- Conversion `formatUnitsQ` turns base-unit sums into decimal sums. -/
theorem formatUnitsQ_add (a b : Int) (d : Nat) :
    formatUnitsQ (a + b) d = formatUnitsQ a d + formatUnitsQ b d := by
  unfold formatUnitsQ
  push_cast
  ring

/-- Calling `stop` never touches the session counters. -/
theorem stop_counters (st : ServiceState) :
    (stop st).1.txCount = st.txCount ∧
    (stop st).1.sessionProfitUnits = st.sessionProfitUnits := by
  unfold stop
  cases st.loop <;> simp

/-- After `stop` no timer handle is stored. -/
theorem stop_loop (st : ServiceState) : (stop st).1.loop = none := by
  unfold stop
  cases h : st.loop <;> simp [h]

/-- The target check never touches the session counters. -/
theorem targetPhase_counters (cfg : Config) (st : ServiceState) (buy : JSResult String) :
    (targetPhase cfg st buy).1.txCount = st.txCount ∧
    (targetPhase cfg st buy).1.sessionProfitUnits = st.sessionProfitUnits := by
  unfold targetPhase
  split
  · exact ⟨(stop_counters st).1, (stop_counters st).2⟩
  · exact ⟨rfl, rfl⟩

/-- The x402 payment handler invokes `buyContent` exactly once, with the
configured payment url, whatever the call resolves to. -/
theorem executeX402Payment_buy (cfg : Config) (buy : JSResult String) :
    countBuy (executeX402Payment cfg buy) = 1 ∧
    (executeX402Payment cfg buy).countP (Event.isBuyTo cfg.paymentUrl) = 1 := by
  unfold executeX402Payment
  cases buy with
  | ok content =>
      by_cases h : content = "" <;>
        simp [h, countBuy, Event.isBuy, Event.isBuyTo, List.countP_cons]
  | nullish => simp [countBuy, Event.isBuy, Event.isBuyTo, List.countP_cons]
  | thrown => simp [countBuy, Event.isBuy, Event.isBuyTo, List.countP_cons]

/-- The x402 payment handler emits no trade, estimation, or opportunity
events. -/
theorem executeX402Payment_no_reports (cfg : Config) (buy : JSResult String) :
    countOpportunity (executeX402Payment cfg buy) = 0 ∧
    (executeX402Payment cfg buy).countP Event.isTradeExecution = 0 ∧
    (executeX402Payment cfg buy).countP Event.isEstimateB = 0 ∧
    (executeX402Payment cfg buy).countP Event.isSwapA = 0 ∧
    (executeX402Payment cfg buy).countP Event.isSwapB = 0 := by
  unfold executeX402Payment
  cases buy with
  | ok content =>
      by_cases h : content = "" <;>
        simp [h, countOpportunity, Event.isOpportunity, Event.isTradeExecution,
          Event.isEstimateB, Event.isSwapA, Event.isSwapB, List.countP_cons]
  | nullish =>
      simp [countOpportunity, Event.isOpportunity, Event.isTradeExecution,
        Event.isEstimateB, Event.isSwapA, Event.isSwapB, List.countP_cons]
  | thrown =>
      simp [countOpportunity, Event.isOpportunity, Event.isTradeExecution,
        Event.isEstimateB, Event.isSwapA, Event.isSwapB, List.countP_cons]

/-- The target check emits no trade, estimation, or opportunity events. -/
theorem targetPhase_no_reports (cfg : Config) (st : ServiceState) (buy : JSResult String) :
    countOpportunity (targetPhase cfg st buy).2 = 0 ∧
    (targetPhase cfg st buy).2.countP Event.isTradeExecution = 0 ∧
    (targetPhase cfg st buy).2.countP Event.isEstimateB = 0 ∧
    (targetPhase cfg st buy).2.countP Event.isSwapA = 0 ∧
    (targetPhase cfg st buy).2.countP Event.isSwapB = 0 := by
  have hx := executeX402Payment_no_reports cfg buy
  simp only [countOpportunity] at hx ⊢
  unfold targetPhase stop
  split
  · cases h : st.loop <;>
      simp [h, Event.isOpportunity, Event.isTradeExecution,
        Event.isEstimateB, Event.isSwapA, Event.isSwapB, List.countP_cons,
        List.countP_append, hx.1, hx.2.1, hx.2.2.1, hx.2.2.2.1, hx.2.2.2.2]
  · simp

/-- Frame conditions of `executeTrade`: it never touches the timer
bookkeeping, never decreases `txCount`, makes no estimation or payment call,
emits no opportunity report, and always emits its entry log exactly once. -/
theorem executeTrade_frame (cfg : Config) (st : ServiceState) (r : CycleResponses) :
    (executeTrade cfg st r).1.loop = st.loop ∧
    (executeTrade cfg st r).1.timers = st.timers ∧
    (executeTrade cfg st r).1.nextHandle = st.nextHandle ∧
    st.txCount ≤ (executeTrade cfg st r).1.txCount ∧
    countBuy (executeTrade cfg st r).2 = 0 ∧
    countOpportunity (executeTrade cfg st r).2 = 0 ∧
    (executeTrade cfg st r).2.countP Event.isTradeExecution = 1 ∧
    (executeTrade cfg st r).2.countP Event.isEstimateB = 0 := by
  rcases r with ⟨eA, eB, sA, sB, bc⟩
  unfold executeTrade
  cases sA <;> cases sB <;> dsimp only <;> (try split_ifs) <;>
    simp [countBuy, countOpportunity, Event.isBuy, Event.isOpportunity,
      Event.isTradeExecution, Event.isEstimateB, List.countP_cons]

/-- The executor `executeTrade` does not decrease the profit accumulator when any
successful second swap returns at least the input amount. -/
theorem executeTrade_profit_mono (cfg : Config) (st : ServiceState) (r : CycleResponses)
    (h : ∀ v : Int, r.swpB = JSResult.ok v → cfg.amountIn ≤ v) :
    st.sessionProfitUnits ≤ (executeTrade cfg st r).1.sessionProfitUnits := by
  rcases r with ⟨eA, eB, sA, sB, bc⟩
  unfold executeTrade
  cases sA with
  | thrown => exact le_refl _
  | nullish => exact le_refl _
  | ok aw =>
      dsimp only
      split_ifs with h0
      · exact le_refl _
      · cases sB with
        | thrown => exact le_refl _
        | nullish => exact le_refl _
        | ok ao =>
            dsimp only
            split_ifs with h1
            · exact le_refl _
            · have := h ao rfl
              dsimp only
              omega

/-- The successful branch of `executeTrade`: both swaps return truthy
amounts, so the two counters are updated together in the same step. -/
theorem executeTrade_success (cfg : Config) (st : ServiceState)
    (eA eB : JSResult Int) (bc : JSResult String) (aw ao : Int)
    (haw : aw ≠ 0) (hao : ao ≠ 0) :
    executeTrade cfg st ⟨eA, eB, JSResult.ok aw, JSResult.ok ao, bc⟩
      = ({ st with
            txCount := st.txCount + 1,
            sessionProfitUnits := st.sessionProfitUnits + (ao - cfg.amountIn) },
         [Event.tradeExecution, Event.swapACall cfg.amountIn, Event.swapBCall aw,
          Event.tradeSuccess (formatUnitsQ (ao - cfg.amountIn) cfg.mainDecimals)]) := by
  unfold executeTrade
  simp [haw, hao]

/-- Unfolding of `executeArbitrageCycle` when both estimates resolve with
truthy amounts. -/
theorem cycle_estimates_ok (cfg : Config) (st : ServiceState)
    (w u : Int) (sA sB : JSResult Int) (bc : JSResult String)
    (hw : w ≠ 0) (hu : u ≠ 0) :
    executeArbitrageCycle cfg st ⟨JSResult.ok w, JSResult.ok u, sA, sB, bc⟩
      = ((targetPhase cfg
            (tradePhase cfg st ⟨JSResult.ok w, JSResult.ok u, sA, sB, bc⟩
              (decide (cfg.profitThresholdAmount ≤ u - cfg.amountIn))).1 bc).1,
         estimationPrefixA cfg ++ estimationPrefixB w ++
         (tradePhase cfg st ⟨JSResult.ok w, JSResult.ok u, sA, sB, bc⟩
            (decide (cfg.profitThresholdAmount ≤ u - cfg.amountIn))).2 ++
         [Event.opportunity cfg.amountIn u (u - cfg.amountIn)
            (profitPercentageQ cfg (u - cfg.amountIn))
            (decide (cfg.profitThresholdAmount ≤ u - cfg.amountIn))
            (tradePhase cfg st ⟨JSResult.ok w, JSResult.ok u, sA, sB, bc⟩
              (decide (cfg.profitThresholdAmount ≤ u - cfg.amountIn))).1.txCount
            (sessionProfitQ cfg
              (tradePhase cfg st ⟨JSResult.ok w, JSResult.ok u, sA, sB, bc⟩
                (decide (cfg.profitThresholdAmount ≤ u - cfg.amountIn))).1)] ++
         (targetPhase cfg
            (tradePhase cfg st ⟨JSResult.ok w, JSResult.ok u, sA, sB, bc⟩
              (decide (cfg.profitThresholdAmount ≤ u - cfg.amountIn))).1 bc).2) := by
  unfold executeArbitrageCycle
  simp [hw, hu]

/-- The conditional trade phase emits the `executeTrade` entry log exactly
when the decision flag is set. -/
theorem tradePhase_tradeExecution (cfg : Config) (st : ServiceState)
    (r : CycleResponses) (b : Bool) :
    (tradePhase cfg st r b).2.countP Event.isTradeExecution = if b then 1 else 0 := by
  unfold tradePhase
  cases b with
  | true => simpa using (executeTrade_frame cfg st r).2.2.2.2.2.2.1
  | false => simp

/-- Claim C1: with both venue estimates succeeding, the decision to invoke
the trade executor is exactly the base-unit integer comparison
`netProfit >= profitThresholdAmount` (witnessed by the entry log of
`executeTrade`, which is emitted iff the service decided to execute); net
profit equal to the threshold executes, one base unit below does not. -/
theorem c1_execution_decision (cfg : Config) (st : ServiceState)
    (sA sB : JSResult Int) (bc : JSResult String) (w u : Int)
    (hw : w ≠ 0) (hu : u ≠ 0) :
    ((executeArbitrageCycle cfg st ⟨JSResult.ok w, JSResult.ok u, sA, sB, bc⟩).2.countP
        Event.isTradeExecution
      = if cfg.profitThresholdAmount ≤ u - cfg.amountIn then 1 else 0) ∧
    (u - cfg.amountIn = cfg.profitThresholdAmount →
      (executeArbitrageCycle cfg st ⟨JSResult.ok w, JSResult.ok u, sA, sB, bc⟩).2.countP
        Event.isTradeExecution = 1) ∧
    (u - cfg.amountIn = cfg.profitThresholdAmount - 1 →
      (executeArbitrageCycle cfg st ⟨JSResult.ok w, JSResult.ok u, sA, sB, bc⟩).2.countP
        Event.isTradeExecution = 0) := by
  have hmain :
      (executeArbitrageCycle cfg st ⟨JSResult.ok w, JSResult.ok u, sA, sB, bc⟩).2.countP
          Event.isTradeExecution
        = if cfg.profitThresholdAmount ≤ u - cfg.amountIn then 1 else 0 := by
    rw [cycle_estimates_ok cfg st w u sA sB bc hw hu]
    have htp := tradePhase_tradeExecution cfg st ⟨JSResult.ok w, JSResult.ok u, sA, sB, bc⟩
      (decide (cfg.profitThresholdAmount ≤ u - cfg.amountIn))
    have htg := (targetPhase_no_reports cfg
      (tradePhase cfg st ⟨JSResult.ok w, JSResult.ok u, sA, sB, bc⟩
        (decide (cfg.profitThresholdAmount ≤ u - cfg.amountIn))).1 bc).2.1
    simp only [List.countP_append, List.countP_cons, List.countP_nil,
      estimationPrefixA, estimationPrefixB, htp, htg, Event.isTradeExecution]
    by_cases hdec : cfg.profitThresholdAmount ≤ u - cfg.amountIn <;> simp [hdec]
  refine ⟨hmain, ?_, ?_⟩
  · intro hb
    rw [hmain, hb]
    simp
  · intro hb
    rw [hmain, hb]
    have : ¬ cfg.profitThresholdAmount ≤ cfg.profitThresholdAmount - 1 := by omega
    simp [this]

/-- Witness for C1 at the spec boundary scenario: net profit exactly equal
to the configured threshold executes. -/
theorem c1_execution_decision_witness :
    (executeArbitrageCycle cfgEx initState respBoundary).2.countP
      Event.isTradeExecution = 1 :=
  (c1_execution_decision cfgEx initState (JSResult.ok 4000000000000000)
      (JSResult.ok 10500000) JSResult.nullish 4000000000000000 10500000
      (by decide) (by decide)).2.1 (by decide)

/-- Claim C2: a NONE from venue A estimation aborts the cycle before venue B
is queried, with no swap call, no state change and exactly one error report;
a NONE from venue B estimation aborts before any swap call, likewise with no
state change and exactly one error report. -/
theorem c2_estimation_short_circuit (cfg : Config) (st : ServiceState)
    (eB sA sB : JSResult Int) (bc : JSResult String)
    (w : Int) (sA2 sB2 : JSResult Int) (bc2 : JSResult String) (hw : w ≠ 0) :
    ((executeArbitrageCycle cfg st ⟨JSResult.nullish, eB, sA, sB, bc⟩).1 = st ∧
     (executeArbitrageCycle cfg st ⟨JSResult.nullish, eB, sA, sB, bc⟩).2.countP
        Event.isEstimateB = 0 ∧
     (executeArbitrageCycle cfg st ⟨JSResult.nullish, eB, sA, sB, bc⟩).2.countP
        Event.isSwapA = 0 ∧
     (executeArbitrageCycle cfg st ⟨JSResult.nullish, eB, sA, sB, bc⟩).2.countP
        Event.isSwapB = 0 ∧
     countError (executeArbitrageCycle cfg st ⟨JSResult.nullish, eB, sA, sB, bc⟩).2 = 1) ∧
    ((executeArbitrageCycle cfg st ⟨JSResult.ok w, JSResult.nullish, sA2, sB2, bc2⟩).1 = st ∧
     (executeArbitrageCycle cfg st ⟨JSResult.ok w, JSResult.nullish, sA2, sB2, bc2⟩).2.countP
        Event.isSwapA = 0 ∧
     (executeArbitrageCycle cfg st ⟨JSResult.ok w, JSResult.nullish, sA2, sB2, bc2⟩).2.countP
        Event.isSwapB = 0 ∧
     countError (executeArbitrageCycle cfg st
        ⟨JSResult.ok w, JSResult.nullish, sA2, sB2, bc2⟩).2 = 1) := by
  constructor
  · unfold executeArbitrageCycle
    simp [estimationPrefixA, countError, Event.isError, Event.isEstimateB,
      Event.isSwapA, Event.isSwapB, List.countP_cons]
  · unfold executeArbitrageCycle
    simp [hw, estimationPrefixA, estimationPrefixB, countError, Event.isError,
      Event.isEstimateB, Event.isSwapA, Event.isSwapB, List.countP_cons,
      List.countP_append]

/-- Witness for C2: venue A failing leaves the fresh state untouched, and
venue A succeeding with venue B failing reports exactly one error. -/
theorem c2_estimation_short_circuit_witness :
    (executeArbitrageCycle cfgEx initState respAllNull).1 = initState ∧
    countError (executeArbitrageCycle cfgEx initState respEstBFail).2 = 1 :=
  ⟨((c2_estimation_short_circuit cfgEx initState JSResult.nullish JSResult.nullish
      JSResult.nullish JSResult.nullish 4000000000000000 JSResult.nullish
      JSResult.nullish JSResult.nullish (by decide)).1).1,
   ((c2_estimation_short_circuit cfgEx initState JSResult.nullish JSResult.nullish
      JSResult.nullish JSResult.nullish 4000000000000000 JSResult.nullish
      JSResult.nullish JSResult.nullish (by decide)).2).2.2.2⟩

/-- Claim C3: in the trade executor, a NONE from the venue A swap means the
venue B swap is never invoked and the whole pre-cycle state (so both
counters) is kept; a NONE from the venue B swap likewise keeps the state, so
the two counters are only ever updated together. -/
theorem c3_execution_short_circuit (cfg : Config) (st : ServiceState)
    (eA eB : JSResult Int) (bc : JSResult String) (sB : JSResult Int)
    (eA2 eB2 : JSResult Int) (bc2 : JSResult String) (w : Int) (hw : w ≠ 0) :
    ((executeTrade cfg st ⟨eA, eB, JSResult.nullish, sB, bc⟩).1 = st ∧
     (executeTrade cfg st ⟨eA, eB, JSResult.nullish, sB, bc⟩).2.countP
        Event.isSwapB = 0 ∧
     countError (executeTrade cfg st ⟨eA, eB, JSResult.nullish, sB, bc⟩).2 = 1) ∧
    ((executeTrade cfg st ⟨eA2, eB2, JSResult.ok w, JSResult.nullish, bc2⟩).1 = st ∧
     countError (executeTrade cfg st
        ⟨eA2, eB2, JSResult.ok w, JSResult.nullish, bc2⟩).2 = 1) := by
  unfold executeTrade
  constructor <;>
    simp [hw, countError, Event.isError, Event.isSwapB, List.countP_cons]

/-- Witness for C3: a failing first swap in the fresh session keeps the
state; a failing second swap reports exactly one error. -/
theorem c3_execution_short_circuit_witness :
    (executeTrade cfgEx initState
       ⟨JSResult.nullish, JSResult.nullish, JSResult.nullish, JSResult.nullish,
        JSResult.nullish⟩).1 = initState ∧
    countError (executeTrade cfgEx initState
       ⟨JSResult.nullish, JSResult.nullish, JSResult.ok 4000000000000000,
        JSResult.nullish, JSResult.nullish⟩).2 = 1 :=
  ⟨((c3_execution_short_circuit cfgEx initState JSResult.nullish JSResult.nullish
      JSResult.nullish JSResult.nullish JSResult.nullish JSResult.nullish
      JSResult.nullish 4000000000000000 (by decide)).1).1,
   ((c3_execution_short_circuit cfgEx initState JSResult.nullish JSResult.nullish
      JSResult.nullish JSResult.nullish JSResult.nullish JSResult.nullish
      JSResult.nullish 4000000000000000 (by decide)).2).2⟩

/-- Claim C4: when the execution decision holds and both swaps resolve with
truthy amounts, the cycle increments the transaction count by exactly 1 and
the session profit by exactly the realized profit converted to decimal at
the main token precision, in the same cycle. -/
theorem c4_counters_updated_together (cfg : Config) (st : ServiceState)
    (w u aw ao : Int) (bc : JSResult String)
    (hw : w ≠ 0) (hu : u ≠ 0) (haw : aw ≠ 0) (hao : ao ≠ 0)
    (hdec : cfg.profitThresholdAmount ≤ u - cfg.amountIn) :
    (executeArbitrageCycle cfg st
        ⟨JSResult.ok w, JSResult.ok u, JSResult.ok aw, JSResult.ok ao, bc⟩).1.txCount
      = st.txCount + 1 ∧
    sessionProfitQ cfg (executeArbitrageCycle cfg st
        ⟨JSResult.ok w, JSResult.ok u, JSResult.ok aw, JSResult.ok ao, bc⟩).1
      = sessionProfitQ cfg st + formatUnitsQ (ao - cfg.amountIn) cfg.mainDecimals := by
  rw [cycle_estimates_ok cfg st w u (JSResult.ok aw) (JSResult.ok ao) bc hw hu]
  have hcount := targetPhase_counters cfg
    (tradePhase cfg st ⟨JSResult.ok w, JSResult.ok u, JSResult.ok aw, JSResult.ok ao, bc⟩
      (decide (cfg.profitThresholdAmount ≤ u - cfg.amountIn))).1 bc
  constructor
  · rw [hcount.1]
    unfold tradePhase
    simp [hdec,
      executeTrade_success cfg st (JSResult.ok w) (JSResult.ok u) bc aw ao haw hao]
  · unfold sessionProfitQ
    rw [hcount.2]
    unfold tradePhase
    simp [hdec,
      executeTrade_success cfg st (JSResult.ok w) (JSResult.ok u) bc aw ao haw hao,
      formatUnitsQ_add]

/-- Witness for C4 at the end-to-end spec scenario: the profitable cycle
with both swaps succeeding moves the counters to 1 and the realized
profit. -/
theorem c4_counters_updated_together_witness :
    (executeArbitrageCycle cfgEx initState respTarget).1.txCount = 1 ∧
    sessionProfitQ cfgEx (executeArbitrageCycle cfgEx initState respTarget).1
      = sessionProfitQ cfgEx initState + formatUnitsQ 100000000 6 := by
  have h := c4_counters_updated_together cfgEx initState
    4000000000000000 110000000 4000000000000000 110000000 (JSResult.ok "content")
    (by decide) (by decide) (by decide) (by decide) (by decide)
  exact ⟨h.1, h.2⟩

/-- Claim C10: the service guards are JavaScript falsiness tests on the
returned bigint, so a resolved `0n` from either `estimatePrice` or either
`executeSwap` takes exactly the same path as `undefined`: the zero estimate
aborts the cycle with one error report, no venue B estimation and no state
change, and the zero swap result aborts the trade with no state change. -/
theorem c10_zero_result_is_falsy (cfg : Config) (st : ServiceState)
    (eA eB sA sB : JSResult Int) (bc : JSResult String) :
    (executeArbitrageCycle cfg st ⟨JSResult.ok 0, eB, sA, sB, bc⟩
      = executeArbitrageCycle cfg st ⟨JSResult.nullish, eB, sA, sB, bc⟩) ∧
    (executeArbitrageCycle cfg st ⟨eA, JSResult.ok 0, sA, sB, bc⟩
      = executeArbitrageCycle cfg st ⟨eA, JSResult.nullish, sA, sB, bc⟩) ∧
    (executeTrade cfg st ⟨eA, eB, JSResult.ok 0, sB, bc⟩
      = executeTrade cfg st ⟨eA, eB, JSResult.nullish, sB, bc⟩) ∧
    (executeTrade cfg st ⟨eA, eB, sA, JSResult.ok 0, bc⟩
      = executeTrade cfg st ⟨eA, eB, sA, JSResult.nullish, bc⟩) ∧
    ((executeArbitrageCycle cfg st ⟨JSResult.ok 0, eB, sA, sB, bc⟩).1 = st ∧
     (executeArbitrageCycle cfg st ⟨JSResult.ok 0, eB, sA, sB, bc⟩).2.countP
        Event.isEstimateB = 0 ∧
     countError (executeArbitrageCycle cfg st ⟨JSResult.ok 0, eB, sA, sB, bc⟩).2 = 1) ∧
    (executeTrade cfg st ⟨eA, eB, sA, JSResult.ok 0, bc⟩).1 = st := by
  refine ⟨?_, ?_, ?_, ?_, ?_, ?_⟩
  · unfold executeArbitrageCycle
    simp
  · unfold executeArbitrageCycle
    cases eA with
    | ok w => by_cases hw : w = 0 <;> simp [hw]
    | nullish => rfl
    | thrown => rfl
  · unfold executeTrade
    simp
  · unfold executeTrade
    cases sA with
    | ok a => by_cases ha : a = 0 <;> simp [ha]
    | nullish => rfl
    | thrown => rfl
  · unfold executeArbitrageCycle
    simp [estimationPrefixA, countError, Event.isError, Event.isEstimateB,
      List.countP_cons]
  · unfold executeTrade
    cases sA with
    | ok a => by_cases ha : a = 0 <;> simp [ha]
    | nullish => rfl
    | thrown => rfl

/-- The conditional trade phase preserves the timer bookkeeping and never
decreases `txCount`. -/
theorem tradePhase_frame (cfg : Config) (st : ServiceState) (r : CycleResponses)
    (b : Bool) :
    (tradePhase cfg st r b).1.loop = st.loop ∧
    (tradePhase cfg st r b).1.timers = st.timers ∧
    st.txCount ≤ (tradePhase cfg st r b).1.txCount ∧
    countBuy (tradePhase cfg st r b).2 = 0 := by
  unfold tradePhase
  cases b with
  | true =>
      have h := executeTrade_frame cfg st r
      exact ⟨h.1, h.2.1, h.2.2.2.1, h.2.2.2.2.1⟩
  | false => simp [countBuy]

/-- The conditional trade phase does not decrease the profit accumulator when
any successful second swap returns at least the input amount. -/
theorem tradePhase_profit_mono (cfg : Config) (st : ServiceState) (r : CycleResponses)
    (b : Bool) (h : ∀ v : Int, r.swpB = JSResult.ok v → cfg.amountIn ≤ v) :
    st.sessionProfitUnits ≤ (tradePhase cfg st r b).1.sessionProfitUnits := by
  unfold tradePhase
  cases b with
  | true => exact executeTrade_profit_mono cfg st r h
  | false => exact le_refl _

/-- One cycle never decreases `txCount`, and never decreases the profit
accumulator as long as any successful second swap returns at least the input
amount. -/
theorem cycle_counters_mono (cfg : Config) (st : ServiceState) (r : CycleResponses) :
    st.txCount ≤ (executeArbitrageCycle cfg st r).1.txCount ∧
    ((∀ v : Int, r.swpB = JSResult.ok v → cfg.amountIn ≤ v) →
      st.sessionProfitUnits ≤ (executeArbitrageCycle cfg st r).1.sessionProfitUnits) := by
  rcases r with ⟨eA, eB, sA, sB, bc⟩
  cases eA with
  | thrown => unfold executeArbitrageCycle; simp
  | nullish => unfold executeArbitrageCycle; simp
  | ok w =>
      by_cases hw : w = 0
      · unfold executeArbitrageCycle; simp [hw]
      · cases eB with
        | thrown => unfold executeArbitrageCycle; simp [hw]
        | nullish => unfold executeArbitrageCycle; simp [hw]
        | ok u =>
            by_cases hu : u = 0
            · unfold executeArbitrageCycle; simp [hw, hu]
            · rw [cycle_estimates_ok cfg st w u sA sB bc hw hu]
              have hc := targetPhase_counters cfg
                (tradePhase cfg st ⟨JSResult.ok w, JSResult.ok u, sA, sB, bc⟩
                  (decide (cfg.profitThresholdAmount ≤ u - cfg.amountIn))).1 bc
              constructor
              · rw [hc.1]
                exact (tradePhase_frame cfg st
                  ⟨JSResult.ok w, JSResult.ok u, sA, sB, bc⟩ _).2.2.1
              · intro h
                rw [hc.2]
                exact tradePhase_profit_mono cfg st
                  ⟨JSResult.ok w, JSResult.ok u, sA, sB, bc⟩ _ h

/-- Claim C5 (amended): the transaction count never decreases under any
session step; the session profit never decreases under any step whose
executed second swap, if any, returns at least the cycle input amount.  (The
unamended claim fails: a cycle whose realized second-swap output is below
the input amount strictly decreases the session profit, see the
counterexample.) -/
theorem c5_counters_monotone_amended (cfg : Config) (st : ServiceState) (s : Step) :
    st.txCount ≤ (doStep cfg st s).1.txCount ∧
    (benignStep cfg s →
      sessionProfitQ cfg st ≤ sessionProfitQ cfg (doStep cfg st s).1) := by
  cases s with
  | stopCall =>
      simp only [doStep]
      refine ⟨le_of_eq ((stop_counters st).1).symm, fun _ => le_of_eq ?_⟩
      unfold sessionProfitQ
      rw [(stop_counters st).2]
  | startCall r =>
      simp only [doStep, start]
      have h := cycle_counters_mono cfg
        { st with
            loop := some st.nextHandle,
            timers := st.timers + 1,
            nextHandle := st.nextHandle + 1 } r
      refine ⟨h.1, fun hb => ?_⟩
      unfold sessionProfitQ
      exact (formatUnitsQ_le_formatUnitsQ _ _ _).mpr (h.2 hb)
  | tick r =>
      simp only [doStep]
      split
      · have h := cycle_counters_mono cfg st r
        refine ⟨h.1, fun hb => ?_⟩
        unfold sessionProfitQ
        exact (formatUnitsQ_le_formatUnitsQ _ _ _).mpr (h.2 hb)
      · exact ⟨le_refl _, fun _ => le_refl _⟩

/-- Counterexample to C5 as stated: from the fresh session, a single
`start()` whose cycle estimates an executable profit but whose executed
second swap returns less than the input amount strictly decreases the
session profit. -/
theorem c5_counterexample :
    sessionProfitQ cfgEx (runTrace cfgEx initState [Step.startCall respLoss]).1
      < sessionProfitQ cfgEx initState := by
  have h : (runTrace cfgEx initState [Step.startCall respLoss]).1.sessionProfitUnits
      < initState.sessionProfitUnits := by decide
  exact (formatUnitsQ_lt_formatUnitsQ _ _ _).mpr h

/-- Witness for the amended C5 at a benign profitable step. -/
theorem c5_counters_monotone_amended_witness :
    initState.txCount ≤ (doStep cfgEx initState (Step.startCall respTarget)).1.txCount ∧
    sessionProfitQ cfgEx initState
      ≤ sessionProfitQ cfgEx (doStep cfgEx initState (Step.startCall respTarget)).1 :=
  ⟨(c5_counters_monotone_amended cfgEx initState (Step.startCall respTarget)).1,
   (c5_counters_monotone_amended cfgEx initState (Step.startCall respTarget)).2
     (by
       intro v hv
       simp only [respTarget] at hv
       cases hv
       decide)⟩

/-- The trade executor never invokes the Content Payment capability. -/
theorem executeTrade_no_buyTo (cfg : Config) (st : ServiceState) (r : CycleResponses)
    (url : String) :
    (executeTrade cfg st r).2.countP (Event.isBuyTo url) = 0 := by
  rcases r with ⟨eA, eB, sA, sB, bc⟩
  unfold executeTrade
  cases sA <;> cases sB <;> dsimp only <;> (try split_ifs) <;>
    simp [Event.isBuyTo, List.countP_cons]

/-- The conditional trade phase never invokes the Content Payment capability. -/
theorem tradePhase_no_buyTo (cfg : Config) (st : ServiceState) (r : CycleResponses)
    (b : Bool) (url : String) :
    (tradePhase cfg st r b).2.countP (Event.isBuyTo url) = 0 := by
  unfold tradePhase
  cases b with
  | true => exact executeTrade_no_buyTo cfg st r url
  | false => simp

/-- Calling `stop` never invokes the Content Payment capability. -/
theorem stop_no_buyTo (st : ServiceState) (url : String) :
    (stop st).2.countP (Event.isBuyTo url) = 0 := by
  unfold stop
  cases st.loop <;> simp [Event.isBuyTo, List.countP_cons]

/-- Claim C6: whenever the target check of a cycle sees a session profit at
or above the configured target (in human-readable main-token units), the
cycle invokes `buyContent` exactly once with the configured payment url and
then stops the scheduler, leaving `isRunning` false — whatever `buyContent`
resolves to (content, `undefined`, or a rejection). -/
theorem c6_target_reached_halts (cfg : Config) (st : ServiceState)
    (w u : Int) (sA sB : JSResult Int) (bc : JSResult String)
    (hw : w ≠ 0) (hu : u ≠ 0)
    (htarget : formatUnitsQ cfg.balanceOut cfg.mainDecimals ≤
      sessionProfitQ cfg (tradePhase cfg st ⟨JSResult.ok w, JSResult.ok u, sA, sB, bc⟩
        (decide (cfg.profitThresholdAmount ≤ u - cfg.amountIn))).1) :
    (executeArbitrageCycle cfg st ⟨JSResult.ok w, JSResult.ok u, sA, sB, bc⟩).2.countP
        (Event.isBuyTo cfg.paymentUrl) = 1 ∧
    isRunning (executeArbitrageCycle cfg st
        ⟨JSResult.ok w, JSResult.ok u, sA, sB, bc⟩).1 = false := by
  rw [cycle_estimates_ok cfg st w u sA sB bc hw hu]
  have ht : cfg.balanceOut ≤
      (tradePhase cfg st ⟨JSResult.ok w, JSResult.ok u, sA, sB, bc⟩
        (decide (cfg.profitThresholdAmount ≤ u - cfg.amountIn))).1.sessionProfitUnits :=
    (formatUnitsQ_le_formatUnitsQ _ _ _).mp htarget
  have htg2 : (targetPhase cfg
      (tradePhase cfg st ⟨JSResult.ok w, JSResult.ok u, sA, sB, bc⟩
        (decide (cfg.profitThresholdAmount ≤ u - cfg.amountIn))).1 bc).2.countP
      (Event.isBuyTo cfg.paymentUrl) = 1 := by
    unfold targetPhase
    rw [if_pos ht]
    simp [List.countP_cons, List.countP_append, Event.isBuyTo,
      (executeX402Payment_buy cfg bc).2, stop_no_buyTo]
  have htg1 : (targetPhase cfg
      (tradePhase cfg st ⟨JSResult.ok w, JSResult.ok u, sA, sB, bc⟩
        (decide (cfg.profitThresholdAmount ≤ u - cfg.amountIn))).1 bc).1.loop = none := by
    unfold targetPhase
    rw [if_pos ht]
    exact stop_loop _
  constructor
  · simp only [List.countP_append, List.countP_cons, List.countP_nil,
      estimationPrefixA, estimationPrefixB, Event.isBuyTo, htg2,
      tradePhase_no_buyTo]
    simp
  · simp only [isRunning, htg1, Option.isSome_none]

/-- Witness for C6 at the target scenario with a rejecting payment call:
the scheduler still stops and `buyContent` was invoked once. -/
theorem c6_target_reached_halts_witness :
    (executeArbitrageCycle cfgEx initState
       ⟨JSResult.ok 4000000000000000, JSResult.ok 110000000,
        JSResult.ok 4000000000000000, JSResult.ok 110000000,
        JSResult.thrown⟩).2.countP (Event.isBuyTo cfgEx.paymentUrl) = 1 ∧
    isRunning (executeArbitrageCycle cfgEx initState
       ⟨JSResult.ok 4000000000000000, JSResult.ok 110000000,
        JSResult.ok 4000000000000000, JSResult.ok 110000000,
        JSResult.thrown⟩).1 = false :=
  c6_target_reached_halts cfgEx initState 4000000000000000 110000000
    (JSResult.ok 4000000000000000) (JSResult.ok 110000000) JSResult.thrown
    (by decide) (by decide)
    ((formatUnitsQ_le_formatUnitsQ _ _ _).mpr (by decide))

/-- Claim C9 (amended): every cycle emits at least one report; a cycle whose
estimation fails (NONE, zero, or a rejection) emits exactly one error report
and no opportunity report; a cycle whose two estimates succeed emits exactly
one opportunity report — but, contrary to the unamended claim, it may emit
error reports in the same cycle as well, when an attempted execution fails
or the target-reached payment rejects (see the counterexample). -/
theorem c9_reports_amended (cfg : Config) (st : ServiceState) (r : CycleResponses) :
    (estimatesOk r = true →
      countOpportunity (executeArbitrageCycle cfg st r).2 = 1) ∧
    (estimatesOk r = false →
      countOpportunity (executeArbitrageCycle cfg st r).2 = 0 ∧
      countError (executeArbitrageCycle cfg st r).2 = 1) ∧
    1 ≤ countOpportunity (executeArbitrageCycle cfg st r).2 +
        countError (executeArbitrageCycle cfg st r).2 := by
  have hparts :
      (estimatesOk r = true →
        countOpportunity (executeArbitrageCycle cfg st r).2 = 1) ∧
      (estimatesOk r = false →
        countOpportunity (executeArbitrageCycle cfg st r).2 = 0 ∧
        countError (executeArbitrageCycle cfg st r).2 = 1) := by
    rcases r with ⟨eA, eB, sA, sB, bc⟩
    cases eA with
    | thrown =>
        unfold executeArbitrageCycle
        simp [estimatesOk, estimationPrefixA, countOpportunity, countError,
          Event.isOpportunity, Event.isError, List.countP_cons]
    | nullish =>
        unfold executeArbitrageCycle
        simp [estimatesOk, estimationPrefixA, countOpportunity, countError,
          Event.isOpportunity, Event.isError, List.countP_cons]
    | ok w =>
        by_cases hw : w = 0
        · unfold executeArbitrageCycle
          cases eB <;>
            simp [hw, estimatesOk, estimationPrefixA, countOpportunity, countError,
              Event.isOpportunity, Event.isError, List.countP_cons]
        · cases eB with
          | thrown =>
              unfold executeArbitrageCycle
              simp [hw, estimatesOk, estimationPrefixA, estimationPrefixB,
                countOpportunity, countError, Event.isOpportunity, Event.isError,
                List.countP_cons, List.countP_append]
          | nullish =>
              unfold executeArbitrageCycle
              simp [hw, estimatesOk, estimationPrefixA, estimationPrefixB,
                countOpportunity, countError, Event.isOpportunity, Event.isError,
                List.countP_cons, List.countP_append]
          | ok u =>
              by_cases hu : u = 0
              · unfold executeArbitrageCycle
                simp [hw, hu, estimatesOk, estimationPrefixA, estimationPrefixB,
                  countOpportunity, countError, Event.isOpportunity, Event.isError,
                  List.countP_cons, List.countP_append]
              · rw [cycle_estimates_ok cfg st w u sA sB bc hw hu]
                have htp := (tradePhase_frame cfg st
                  ⟨JSResult.ok w, JSResult.ok u, sA, sB, bc⟩
                  (decide (cfg.profitThresholdAmount ≤ u - cfg.amountIn)))
                constructor
                · intro _
                  have htpo : countOpportunity
                      (tradePhase cfg st ⟨JSResult.ok w, JSResult.ok u, sA, sB, bc⟩
                        (decide (cfg.profitThresholdAmount ≤ u - cfg.amountIn))).2 = 0 := by
                    unfold tradePhase
                    cases hb : decide (cfg.profitThresholdAmount ≤ u - cfg.amountIn) with
                    | true =>
                        simpa [countOpportunity] using
                          (executeTrade_frame cfg st
                            ⟨JSResult.ok w, JSResult.ok u, sA, sB, bc⟩).2.2.2.2.2.1
                    | false => simp [countOpportunity]
                  have htgo := (targetPhase_no_reports cfg
                    (tradePhase cfg st ⟨JSResult.ok w, JSResult.ok u, sA, sB, bc⟩
                      (decide (cfg.profitThresholdAmount ≤ u - cfg.amountIn))).1 bc).1
                  simp only [countOpportunity] at htpo htgo ⊢
                  simp [List.countP_append, List.countP_cons, List.countP_nil,
                    estimationPrefixA, estimationPrefixB, Event.isOpportunity,
                    htpo, htgo]
                · intro hok
                  simp [estimatesOk, hw, hu] at hok
  refine ⟨hparts.1, hparts.2, ?_⟩
  cases hok : estimatesOk r with
  | true =>
      have := hparts.1 hok
      omega
  | false =>
      have := (hparts.2 hok).2
      omega

/-- Counterexample to C9 as stated: a cycle whose estimates succeed with an
executable profit but whose first swap fails emits an error report AND the
opportunity report in the same cycle — not exactly one of the two. -/
theorem c9_counterexample :
    countError (executeArbitrageCycle cfgEx initState respExecFail).2 = 1 ∧
    countOpportunity (executeArbitrageCycle cfgEx initState respExecFail).2 = 1 := by
  constructor <;> decide

/-- Witness for the amended C9: a cycle whose first estimate fails emits no
opportunity report and exactly one error report. -/
theorem c9_reports_amended_witness :
    countOpportunity (executeArbitrageCycle cfgEx initState respAllNull).2 = 0 ∧
    countError (executeArbitrageCycle cfgEx initState respAllNull).2 = 1 :=
  (c9_reports_amended cfgEx initState respAllNull).2.1 (by decide)

/-- Claim C8 (violated by the source): `start()` has no re-entrancy guard —
calling it a second time while Running arms a second interval timer and
overwrites the stored handle, so two timers are active; a subsequent
`stop()` clears only the stored handle, leaving `isRunning` false while one
leaked timer is still armed. -/
theorem c8_double_start_leaks_timer :
    (runTrace cfgEx initState
       [Step.startCall respAllNull, Step.startCall respAllNull]).1.timers = 2 ∧
    isRunning (runTrace cfgEx initState
       [Step.startCall respAllNull, Step.startCall respAllNull]).1 = true ∧
    (stop (runTrace cfgEx initState
       [Step.startCall respAllNull, Step.startCall respAllNull]).1).1.timers = 1 ∧
    isRunning (stop (runTrace cfgEx initState
       [Step.startCall respAllNull, Step.startCall respAllNull]).1).1 = false := by
  refine ⟨by decide, by decide, by decide, by decide⟩

/-- Counting `countBuy` distributes over list concatenation. -/
theorem countBuy_append (l1 l2 : List Event) :
    countBuy (l1 ++ l2) = countBuy l1 + countBuy l2 := by
  unfold countBuy
  exact List.countP_append _ _ _

/-- Counting `countBuy` on a cons cell. -/
theorem countBuy_cons (a : Event) (l : List Event) :
    countBuy (a :: l) = countBuy l + if Event.isBuy a then 1 else 0 := by
  unfold countBuy
  exact List.countP_cons _ _ _

/-- A singleton opportunity report contains no payment call. -/
theorem countBuy_opportunity (a b c : Int) (p : ℚ) (e : Bool) (t : Nat) (q : ℚ) :
    countBuy [Event.opportunity a b c p e t q] = 0 := by
  simp [countBuy, Event.isBuy, List.countP_cons]

/-- Coherence `stateInv` only reads the `loop` and `timers` fields. -/
theorem stateInv_eq_of_fields {s t : ServiceState} (hl : s.loop = t.loop)
    (ht : s.timers = t.timers) : stateInv s = stateInv t := by
  unfold stateInv
  rw [hl, ht]

/-- Calling `stop` preserves timer-handle coherence, never arms a timer, and makes
no payment call. -/
theorem stop_stateInv (st : ServiceState) (hinv : stateInv st = true) :
    stateInv (stop st).1 = true ∧ (stop st).1.timers ≤ st.timers ∧
    countBuy (stop st).2 = 0 := by
  unfold stop
  cases hsome : st.loop with
  | none =>
      refine ⟨?_, le_refl _, by simp [countBuy]⟩
      unfold stateInv at hinv ⊢
      exact hinv
  | some h =>
      unfold stateInv at hinv ⊢
      rw [hsome] at hinv
      simp at hinv
      simp [countBuy, Event.isBuy, List.countP_cons, hinv]

/-- The target check preserves timer-handle coherence, and its payment calls
are paid for by disarming a timer: the number of `buyContent` invocations it
makes plus the timers left armed never exceeds the timers that were armed. -/
theorem targetPhase_buy_timers (cfg : Config) (st : ServiceState) (buy : JSResult String)
    (hinv : stateInv st = true) (hl : st.loop.isSome = true) :
    stateInv (targetPhase cfg st buy).1 = true ∧
    countBuy (targetPhase cfg st buy).2 + (targetPhase cfg st buy).1.timers
      ≤ st.timers := by
  cases hsome : st.loop with
  | none => rw [hsome] at hl; simp at hl
  | some h =>
      have htim : st.timers = 1 := by
        unfold stateInv at hinv
        rw [hsome] at hinv
        simpa using hinv
      unfold targetPhase
      split
      · unfold stop
        rw [hsome]
        constructor
        · unfold stateInv
          simp [htim]
        · rw [countBuy_cons, countBuy_append]
          have hx := (executeX402Payment_buy cfg buy).1
          have hb : countBuy [Event.botStop] = 0 := by
            simp [countBuy, Event.isBuy, List.countP_cons]
          simp only [hx, hb, Event.isBuy]
          simp [htim]
      · exact ⟨hinv, by simp [countBuy]⟩

/-- One cycle from a coherent running state: coherence is preserved, and any
`buyContent` invocation it makes is paid for by disarming a timer. -/
theorem cycle_buy_timers (cfg : Config) (st : ServiceState) (r : CycleResponses)
    (hinv : stateInv st = true) (hl : st.loop.isSome = true) :
    stateInv (executeArbitrageCycle cfg st r).1 = true ∧
    countBuy (executeArbitrageCycle cfg st r).2 +
        (executeArbitrageCycle cfg st r).1.timers
      ≤ st.timers := by
  rcases r with ⟨eA, eB, sA, sB, bc⟩
  cases eA with
  | thrown =>
      unfold executeArbitrageCycle
      simp [hinv, countBuy, Event.isBuy, estimationPrefixA, List.countP_cons,
        List.countP_append]
  | nullish =>
      unfold executeArbitrageCycle
      simp [hinv, countBuy, Event.isBuy, estimationPrefixA, List.countP_cons,
        List.countP_append]
  | ok w =>
      by_cases hw : w = 0
      · unfold executeArbitrageCycle
        simp [hw, hinv, countBuy, Event.isBuy, estimationPrefixA, List.countP_cons,
          List.countP_append]
      · cases eB with
        | thrown =>
            unfold executeArbitrageCycle
            simp [hw, hinv, countBuy, Event.isBuy, estimationPrefixA,
              estimationPrefixB, List.countP_cons, List.countP_append]
        | nullish =>
            unfold executeArbitrageCycle
            simp [hw, hinv, countBuy, Event.isBuy, estimationPrefixA,
              estimationPrefixB, List.countP_cons, List.countP_append]
        | ok u =>
            by_cases hu : u = 0
            · unfold executeArbitrageCycle
              simp [hw, hu, hinv, countBuy, Event.isBuy, estimationPrefixA,
                estimationPrefixB, List.countP_cons, List.countP_append]
            · rw [cycle_estimates_ok cfg st w u sA sB bc hw hu]
              have htpf := tradePhase_frame cfg st
                ⟨JSResult.ok w, JSResult.ok u, sA, sB, bc⟩
                (decide (cfg.profitThresholdAmount ≤ u - cfg.amountIn))
              have hinv2 : stateInv
                  (tradePhase cfg st ⟨JSResult.ok w, JSResult.ok u, sA, sB, bc⟩
                    (decide (cfg.profitThresholdAmount ≤ u - cfg.amountIn))).1 = true := by
                rw [stateInv_eq_of_fields htpf.1 htpf.2.1]
                exact hinv
              have hl2 : (tradePhase cfg st ⟨JSResult.ok w, JSResult.ok u, sA, sB, bc⟩
                  (decide (cfg.profitThresholdAmount ≤ u - cfg.amountIn))).1.loop.isSome
                    = true := by
                rw [htpf.1]
                exact hl
              have htg := targetPhase_buy_timers cfg
                (tradePhase cfg st ⟨JSResult.ok w, JSResult.ok u, sA, sB, bc⟩
                  (decide (cfg.profitThresholdAmount ≤ u - cfg.amountIn))).1 bc hinv2 hl2
              refine ⟨htg.1, ?_⟩
              have h0 := htpf.2.2.2
              have h1 := htg.2
              rw [htpf.2.1] at h1
              have hA : countBuy (estimationPrefixA cfg) = 0 := by
                simp [countBuy, estimationPrefixA, Event.isBuy, List.countP_cons]
              have hB : countBuy (estimationPrefixB w) = 0 := by
                simp [countBuy, estimationPrefixB, Event.isBuy, List.countP_cons]
              simp only [countBuy_append, countBuy_opportunity, hA, hB, h0]
              omega

/-- Claim C7 (amended): the Content Payment capability is invoked at most
once per run, not once per session: under well-formed usage (no `start()`
while already Running) the number of `buyContent` invocations over any step
sequence is bounded by the number of `start()` calls plus the timers already
armed — so from a coherent non-running state, at most one invocation per
run, each followed by `stop()`.  (The unamended claim fails: a restart after
target-reached pays again, see the counterexample.) -/
theorem c7_buy_once_per_run_amended (cfg : Config) :
    ∀ (tr : List Step) (st : ServiceState),
      stateInv st = true → wfSteps cfg st tr = true →
      countBuy (runTrace cfg st tr).2 ≤ numStarts tr + st.timers := by
  intro tr
  induction tr with
  | nil =>
      intro st _ _
      simp [runTrace, countBuy, numStarts]
  | cons s rest ih =>
      intro st hinv hwf
      cases s with
      | stopCall =>
          have hs := stop_stateInv st hinv
          have hwf2 : wfSteps cfg (stop st).1 rest = true := hwf
          have ihx := ih (stop st).1 hs.1 hwf2
          simp only [runTrace, doStep, countBuy_append, numStarts]
          have h0 := hs.2.2
          have h1 := hs.2.1
          omega
      | tick r =>
          by_cases htim : 0 < st.timers
          · have hl : st.loop.isSome = true := by
              cases hsome : st.loop with
              | none =>
                  unfold stateInv at hinv
                  rw [hsome] at hinv
                  simp at hinv
                  omega
              | some h => simp [hsome]
            have hcyc := cycle_buy_timers cfg st r hinv hl
            have hstep : doStep cfg st (Step.tick r) = executeArbitrageCycle cfg st r := by
              simp [doStep, htim]
            have hwf2 : wfSteps cfg (doStep cfg st (Step.tick r)).1 rest = true := hwf
            rw [hstep] at hwf2
            have ihx := ih (executeArbitrageCycle cfg st r).1 hcyc.1 hwf2
            simp only [runTrace, hstep, countBuy_append, numStarts]
            have h1 := hcyc.2
            omega
          · have hstep : doStep cfg st (Step.tick r) = (st, []) := by
              simp [doStep, htim]
            have hwf2 : wfSteps cfg (doStep cfg st (Step.tick r)).1 rest = true := hwf
            rw [hstep] at hwf2
            have ihx := ih st hinv hwf2
            simp only [runTrace, hstep, countBuy_append, numStarts]
            have h0 : countBuy ([] : List Event) = 0 := by simp [countBuy]
            omega
      | startCall r =>
          have hwf' : (!(isRunning st) && wfSteps cfg (doStep cfg st (Step.startCall r)).1 rest)
              = true := hwf
          rw [Bool.and_eq_true] at hwf'
          have hnr : isRunning st = false := by
            rcases hwf' with ⟨h1, _⟩
            simpa using h1
          have hwf2 : wfSteps cfg (doStep cfg st (Step.startCall r)).1 rest = true :=
            hwf'.2
          have hnone : st.loop = none := by
            unfold isRunning at hnr
            cases hsome : st.loop with
            | none => rfl
            | some h => rw [hsome] at hnr; simp at hnr
          have htim0 : st.timers = 0 := by
            unfold stateInv at hinv
            rw [hnone] at hinv
            simpa using hinv
          have hinvArmed : stateInv
              { st with
                  loop := some st.nextHandle,
                  timers := st.timers + 1,
                  nextHandle := st.nextHandle + 1 } = true := by
            unfold stateInv
            simp [htim0]
          have hcyc := cycle_buy_timers cfg
            { st with
                loop := some st.nextHandle,
                timers := st.timers + 1,
                nextHandle := st.nextHandle + 1 } r hinvArmed (by simp)
          have hstep : doStep cfg st (Step.startCall r)
              = ((executeArbitrageCycle cfg
                    { st with
                        loop := some st.nextHandle,
                        timers := st.timers + 1,
                        nextHandle := st.nextHandle + 1 } r).1,
                 Event.botStart ::
                   (executeArbitrageCycle cfg
                     { st with
                         loop := some st.nextHandle,
                         timers := st.timers + 1,
                         nextHandle := st.nextHandle + 1 } r).2) := rfl
          rw [hstep] at hwf2
          have ihx := ih _ hcyc.1 hwf2
          have h1 := hcyc.2
          have ha : ({ st with
              loop := some st.nextHandle,
              timers := st.timers + 1,
              nextHandle := st.nextHandle + 1 } : ServiceState).timers
            = st.timers + 1 := rfl
          simp only [runTrace, hstep, countBuy_append, countBuy_cons, numStarts,
            Event.isBuy, Bool.false_eq_true, if_false]
          omega

/-- Counterexample to C7 as stated: a well-formed session that reaches the
target (one `buyContent` call, then auto-stop) and is then restarted invokes
`buyContent` a second time within the same service instance. -/
theorem c7_counterexample :
    wfSteps cfgEx initState [Step.startCall respTarget, Step.startCall respIdle] = true ∧
    countBuy (runTrace cfgEx initState
      [Step.startCall respTarget, Step.startCall respIdle]).2 = 2 := by
  constructor <;> decide

/-- Witness for the amended C7: a single-run trace reaching the target pays
at most once. -/
theorem c7_buy_once_per_run_amended_witness :
    countBuy (runTrace cfgEx initState [Step.startCall respTarget]).2
      ≤ numStarts [Step.startCall respTarget] + initState.timers :=
  c7_buy_once_per_run_amended cfgEx [Step.startCall respTarget] initState
    (by decide) (by decide)

end Arb
